import Mathlib

/-!
# Verification of the ubii-node-python client framework core

Shallow embedding of `ubii/framework/client.py` (the `UbiiClient` capability /
behavior model, readiness notification and reset logic, and the
`AbstractClientProtocol` hooks) and of `ubii/framework/util/functools.py`
(the `hook` / `compose` decorator machinery), together with proofs about the
embedded operations.

Behavior ("capability") dataclasses are modelled as kinds naming a list of
slot fields; an instance maps field names to optional values (all fields of
the dataclasses in the source default to `None`).  Python exceptions are
modelled with an error type; machinery that lives outside the provided
sources (the protocol state machine of `ubii.framework.protocol`, the
`awaitable_predicate` and `TaskNursery` utilities of `codestare.async_utils`,
and `asyncio.wait_for`) is modelled from the spec, as documented on the
corresponding definitions.
-/

namespace Ubii

/-- Python exceptions raised by the embedded code: `ValueError` (used by the
source both for invalid-argument and invalid-state failures), `KeyError`
(dict lookup misses), `asyncio.TimeoutError`, and `RuntimeError` carrying an
optional `__cause__`. -/
inductive PyError : Type
  | valueError
  | keyError
  | timeoutError
  | runtimeError (cause : Option PyError)

/-- `ubii.proto.Client.State` values used by the framework: `UNAVAILABLE`,
`ACTIVE`, and the remaining broker-defined codes. -/
inductive ClientStatus : Type
  | unavailable
  | active
  | other (code : Nat)
deriving Repr, DecidableEq

/-- A behavior (capability) dataclass kind: the dataclass name and the names
of its dataclass fields, e.g. `Services` with the single field
`service_map`.  All behavior dataclasses in the source give every field the
default value `None`. -/
structure BehaviorKind : Type where
  className : String
  fields : List String
deriving Repr, DecidableEq

/-- An argument passed as a required or optional behavior to
`UbiiClient.__init__`: either a behavior dataclass or some other Python
object (for which `dataclasses.is_dataclass` is false). -/
inductive BehaviorArg : Type
  | dataclass (kind : BehaviorKind)
  | notDataclass (descr : String)
deriving Repr, DecidableEq

/-- `dataclasses.is_dataclass` on a behavior argument. -/
def BehaviorArg.isDataclass : BehaviorArg → Bool
  | .dataclass _ => true
  | .notDataclass _ => false

/-- The behavior kind of a valid behavior argument. -/
def BehaviorArg.kind? : BehaviorArg → Option BehaviorKind
  | .dataclass k => some k
  | .notDataclass _ => none

/-- An instance of a behavior dataclass (a `_patch_behavior` proxy object):
its dataclass type and the values of its attributes.  Slot values are
abstracted as natural numbers; `none` models `None`. -/
structure BehaviorInstance : Type where
  kind : BehaviorKind
  slots : String → Option Nat

/-- Constructing a behavior dataclass with no arguments
(`self._patch_behavior(kls)()` in `UbiiClient.__init__`): every field takes
its default value `None`. -/
def freshInstance (k : BehaviorKind) : BehaviorInstance :=
  ⟨k, fun _ => none⟩

/-- `setattr` on a behavior instance (the raw field write performed by the
proxy's `__setattr__` before it notifies the client). -/
def setInstanceSlot (inst : BehaviorInstance) (f : String) (v : Option Nat) :
    BehaviorInstance :=
  { inst with slots := fun n => if n = f then v else inst.slots n }

/-- The source's `dataclasses.asdict(value)` round trip performed by
`UbiiClient.__setitem__`: the copied proxy keeps exactly the declared fields
of the value's dataclass type. -/
def copyAsDict (inst : BehaviorInstance) : BehaviorInstance :=
  ⟨inst.kind, fun f => if f ∈ inst.kind.fields then inst.slots f else none⟩

/-- Modelled from the spec: the protocol state machine of
`ubii.framework.protocol.AbstractProtocol` is not among the provided
sources.  Per the spec a protocol's `state` is opaque except for two
distinguished markers, *not started* (Python `None`, here `none`) and the
terminal `end_state`; `state.set` checks the declared `state_changes` and
raises `ValueError` for an undeclared transition, so whether the
`end_state → None` transition used by `UbiiClient.reset` exists is a
property of the concrete protocol (`allowsResetTransition`).  The task
nursery sentinel (`codestare.async_utils.TaskNursery`, also external) is
modelled by the flag `sentinelAlive`. -/
structure ProtocolModel : Type where
  state : Option Nat
  endState : Nat
  allowsResetTransition : Bool
  wasStarted : Bool
  sentinelAlive : Bool
deriving Repr, DecidableEq

/-- `AbstractProtocol.finished`: the protocol state equals its end state. -/
def protocolFinished (p : ProtocolModel) : Bool :=
  p.state = some p.endState

/-- The `ubii.proto.Client` message fields touched by the framework code:
`id`, `name` and `state`.  `UbiiClient._init_specs` snapshots these via
`to_dict`. -/
structure ProtoFields : Type where
  id : String
  name : String
  state : ClientStatus
deriving Repr, DecidableEq

/-- Keyword arguments of `UbiiClient.__init__` that populate the proto
message: `name` (the empty string models a missing/falsy name) and `state`
(`none` models `'state' not in self`), plus the `id`. -/
structure ClientInit : Type where
  name : String
  state? : Option ClientStatus
  id : String
deriving Repr, DecidableEq

/-- State of a `UbiiClient` object.

* `protoFields` — the wrapped proto message fields;
* `requiredBehaviors` / `optionalBehaviors` — `_required_behaviors` and
  `_optional_behaviors`;
* `behaviorKeys` / `behaviorMap` — the `_behaviors` dict (key insertion
  order and key-to-instance mapping);
* `notifier` — `_notifier`: `none` when no notification task is pending,
  otherwise the id of the pending task created by `notify`;
* `nextTaskId` — fresh task ids handed out by the task nursery;
* `deliveredCount` — how many times a pending `_notify` task has run
  (delivering `change_specs.notify_all` to the waiters);
* `initTaskGen` — generation counter of the `ClientInitTaskWrapper` task
  (`_set_task` bumps it);
* `nurseryGen` — generation counter of the task nursery (bumped when
  `reset` replaces a dead nursery);
* `protocol` — the `_protocol`;
* `initSpecs` — `_init_specs`, captured at construction. -/
structure UbiiClient : Type where
  protoFields : ProtoFields
  requiredBehaviors : List BehaviorKind
  optionalBehaviors : List BehaviorKind
  behaviorKeys : List BehaviorKind
  behaviorMap : BehaviorKind → Option BehaviorInstance
  notifier : Option Nat
  nextTaskId : Nat
  deliveredCount : Nat
  initTaskGen : Nat
  nurseryGen : Nat
  protocol : ProtocolModel
  initSpecs : ProtoFields

/-- Dict-key collection in insertion order, mirroring how
`{kls: ... for kls in behaviors}` deduplicates keys. -/
def insertKeys (ks : List BehaviorKind) : List BehaviorKind :=
  ks.foldl (fun acc k => if k ∈ acc then acc else acc ++ [k]) []

/-- `UbiiClient.__init__`: raises `ValueError` unless every element of
`required_behaviors` and `optional_behaviors` is a dataclass; defaults a
falsy `name` to `"Python-Client-" + type(self).__name__` and a missing
`state` to `State.UNAVAILABLE`; builds one fresh (all-`None`) behavior
instance per declared kind; leaves `_notifier` unset; and snapshots the
proto fields as `_init_specs`. -/
def mkClient (className : String) (init : ClientInit) (p : ProtocolModel)
    (required_behaviors optional_behaviors : List BehaviorArg) :
    Except PyError UbiiClient :=
  let behaviors := required_behaviors ++ optional_behaviors
  if behaviors.all BehaviorArg.isDataclass then
    let reqK := required_behaviors.filterMap BehaviorArg.kind?
    let optK := optional_behaviors.filterMap BehaviorArg.kind?
    let keys := insertKeys (reqK ++ optK)
    let pf : ProtoFields :=
      { id := init.id
      , name := if init.name = "" then "Python-Client-" ++ className else init.name
      , state := init.state?.getD ClientStatus.unavailable }
    .ok
      { protoFields := pf
      , requiredBehaviors := reqK
      , optionalBehaviors := optK
      , behaviorKeys := keys
      , behaviorMap := fun k => if k ∈ keys then some (freshInstance k) else none
      , notifier := none
      , nextTaskId := 0
      , deliveredCount := 0
      , initTaskGen := 0
      , nurseryGen := 0
      , protocol := p
      , initSpecs := pf }
  else .error PyError.valueError

/-- `UbiiClient.__getitem__` / the `_behaviors` dict lookup. -/
def getBehavior (c : UbiiClient) (k : BehaviorKind) : Option BehaviorInstance :=
  c.behaviorMap k

/-- The value currently held by slot `f` of the instance stored under kind
`k` (`none` both for an empty slot and for an undeclared kind). -/
def slotValue (c : UbiiClient) (k : BehaviorKind) (f : String) : Option Nat :=
  match c.behaviorMap k with
  | some inst => inst.slots f
  | none => none

/-- `UbiiClient.notify`: schedules a `_notify` task unless one is already
pending (`if not self._notifier`). -/
def notifyClient (c : UbiiClient) : UbiiClient :=
  if c.notifier = none then
    { c with notifier := some c.nextTaskId, nextTaskId := c.nextTaskId + 1 }
  else c

/-- The pending `_notify` task running: under the `change_specs` condition
lock it wakes all waiters (`notify_all`) and clears `_notifier`.  A no-op
when no task is pending. -/
def deliverNotifier (c : UbiiClient) : UbiiClient :=
  if c.notifier = none then c
  else { c with notifier := none, deliveredCount := c.deliveredCount + 1 }

/-- A slot write `client[k].f = v` through the `_patch_behavior` proxy:
looks the instance up in `_behaviors` (a missing kind raises `KeyError`
before any mutation, leaving the state unchanged), performs the `setattr`,
then calls `client.notify()`. -/
def clientWriteSlot (c : UbiiClient) (k : BehaviorKind) (f : String)
    (v : Option Nat) : UbiiClient :=
  match c.behaviorMap k with
  | none => c
  | some inst =>
    notifyClient
      { c with behaviorMap := fun k' =>
          if k' = k then some (setInstanceSlot inst f v) else c.behaviorMap k' }

/-- A value assigned by `client[key] = value`: a behavior dataclass instance
or any other Python object. -/
inductive PyValue : Type
  | dataclassVal (inst : BehaviorInstance)
  | otherVal (descr : String)

/-- `UbiiClient.__setitem__`: raises `ValueError` unless the assigned value
is a dataclass instance; otherwise stores under `key` a `_patch_behavior`
proxy copy of `type(value)(**dataclasses.asdict(value))` and calls
`self.notify()`.  The value's dataclass type is not compared with `key`. -/
def setItem (c : UbiiClient) (key : BehaviorKind) (v : PyValue) :
    Except PyError UbiiClient :=
  match v with
  | .otherVal _ => .error PyError.valueError
  | .dataclassVal inst =>
    let inst' := copyAsDict inst
    let keys := if key ∈ c.behaviorKeys then c.behaviorKeys
      else c.behaviorKeys ++ [key]
    .ok (notifyClient
      { c with
        behaviorKeys := keys
        behaviorMap := fun k => if k = key then some inst' else c.behaviorMap k })

/-- One conjunct evaluation pass of the generator inside `fields_not_none`:
checks the listed fields of one behavior kind against the instance found in
`_behaviors` (a missing kind raises `KeyError` when the first field
condition is evaluated; `all` stops early at the first empty slot). -/
def checkKindFields (inst? : Option BehaviorInstance) :
    List String → Except PyError Bool
  | [] => .ok true
  | f :: rest =>
    match inst? with
    | none => .error PyError.keyError
    | some inst =>
      if (inst.slots f).isSome then checkKindFields inst? rest else .ok false

/-- The predicate `fields_not_none` closed over by `UbiiClient.implements`:
`all(getattr(self._behaviors[b], field.name) is not None for b in behaviors
for field in dataclasses.fields(b))`. -/
def fields_not_none (c : UbiiClient) : List BehaviorKind → Except PyError Bool
  | [] => .ok true
  | k :: rest =>
    match checkKindFields (c.behaviorMap k) k.fields with
    | .error e => .error e
    | .ok true => fields_not_none c rest
    | .ok false => .ok false

/-- Modelled from the spec: `util.awaitable_predicate` comes from the
external `codestare.async_utils` package, which is not among the provided
sources.  Per the spec, converting the object returned by
`UbiiClient.implements` to a boolean evaluates its predicate — here the
source's `fields_not_none` closure. -/
def implementsBool (c : UbiiClient) (ks : List BehaviorKind) :
    Except PyError Bool :=
  fields_not_none c ks

/-- `UbiiClient.wants`: every passed behavior is a member of the declared
required or optional behaviors. -/
def wants (c : UbiiClient) (ks : List BehaviorKind) : Bool :=
  ks.all fun k =>
    decide (k ∈ c.requiredBehaviors) || decide (k ∈ c.optionalBehaviors)

/-- The loop body of `ClientInitTaskWrapper.reset` for one behavior kind:
`setattr(self.client[behavior], field.name, None)` for every dataclass field
of the kind (each write goes through the proxy and notifies the client). -/
def clearKindFields (c : UbiiClient) (k : BehaviorKind) : UbiiClient :=
  k.fields.foldl (fun acc f => clientWriteSlot acc k f none) c

/-- The full clearing loop of `ClientInitTaskWrapper.reset`: iterate over
the keys of `_behaviors` and blank every declared field. -/
def clearAllSlots (c : UbiiClient) : UbiiClient :=
  c.behaviorKeys.foldl clearKindFields c

/-- The dead-nursery recovery at the top of `UbiiClient.reset`: when the
task nursery's sentinel task is dead, a fresh nursery replaces it (the old
exit stack is migrated into it). -/
def sentinelFix (c : UbiiClient) : UbiiClient :=
  if c.protocol.sentinelAlive then c
  else
    { c with nurseryGen := c.nurseryGen + 1
           , protocol := { c.protocol with sentinelAlive := true } }

/-- `UbiiClient.reset` (calling `ClientInitTaskWrapper.reset` internally):

1. replace the task nursery if its sentinel is dead;
2. `self._init.reset()` — raise `ValueError` when the protocol is not in
   its end state, otherwise blank every declared behavior field and create
   a fresh wait-until-usable task (`_set_task`);
3. `await self.protocol.state.set(None)` — set the protocol state back to
   *not started*; a protocol without the end-state-to-`None` state change
   raises `ValueError`, which is caught and turned into a warning;
4. restore the proto fields from `_init_specs`.

The first component of the result is the exception escaping the call
(`none` when the reset completed), the second the client state afterwards. -/
def clientReset (c : UbiiClient) : Option PyError × UbiiClient :=
  let c1 := sentinelFix c
  if protocolFinished c1.protocol then
    let c2 := clearAllSlots c1
    let c3 := { c2 with initTaskGen := c2.initTaskGen + 1 }
    let c4 :=
      if c3.protocol.allowsResetTransition then
        { c3 with protocol := { c3.protocol with state := none } }
      else c3
    (none, { c4 with protoFields := c4.initSpecs })
  else (some PyError.valueError, c1)

/-- Events driving the notification machinery of one client: a behavior
slot write (which calls `notify`) or the scheduler running the pending
`_notify` task. -/
inductive NotifyEvent : Type
  | writeSlot (k : BehaviorKind) (f : String) (v : Option Nat)
  | deliver

/-- Small-step semantics of the notification machinery. -/
def stepNotify (c : UbiiClient) : NotifyEvent → UbiiClient
  | .writeSlot k f v => clientWriteSlot c k f v
  | .deliver => deliverNotifier c

/-- Number of pending `_notify` tasks (`_notifier` holds at most one). -/
def pendingCount (c : UbiiClient) : Nat :=
  if c.notifier.isSome then 1 else 0

/-- The awaited calls of `AbstractClientProtocol.on_registration`, in
order, including the deadline (in seconds) of the `asyncio.wait_for` on the
client, and the final status assignment. -/
inductive RegStep : Type
  | createTopicConnection
  | implementClient
  | waitForClient (timeoutSecs : Nat)
  | setStatusActive
deriving Repr, DecidableEq

/-- `AbstractClientProtocol.on_registration`: awaits
`create_topic_connection(context)`, then `implement_client(context)`, then
`asyncio.wait_for(context.client, timeout=5)`.  Whether the client becomes
implemented within the 5 second deadline is an oracle
(`implementedWithin5s`, modelling `asyncio.wait_for` from the spec); on
timeout the hook raises `RuntimeError("Client is not implemented")` with
the `asyncio.TimeoutError` as cause, on success it sets the client state to
`ACTIVE`.  Returns the trace of awaited steps and the outcome. -/
def on_registration (implementedWithin5s : Bool) (c : UbiiClient) :
    List RegStep × Except PyError UbiiClient :=
  let steps := [RegStep.createTopicConnection, RegStep.implementClient,
    RegStep.waitForClient 5]
  if implementedWithin5s then
    (steps ++ [RegStep.setStatusActive],
      .ok { c with protoFields := { c.protoFields with state := ClientStatus.active } })
  else
    (steps, .error (PyError.runtimeError (some PyError.timeoutError)))

/-- `ubii.framework.util.functools.hook`: the wrapped callable, the list of
globally registered decorators, and the cached decorated callable
(`_applied`, `none` after `cache_clear`). -/
structure hook (α β : Type) : Type where
  func : α → β
  globalDecorators : List ((α → β) → (α → β))
  applied : Option (α → β)

/-- `hook.__init__` with no initial decorators. -/
def hook.mkHook {α β : Type} (f : α → β) : hook α β :=
  ⟨f, [], none⟩

/-- `ubii.framework.util.functools.compose` on a non-empty argument list
(`compose` raises on an empty list): `functools.reduce(lambda g, f:
lambda *a: f(g(*a)), funcs)`. -/
def compose {γ : Type} (f0 : γ → γ) (fs : List (γ → γ)) : γ → γ :=
  fs.foldl (fun g f => fun a => f (g a)) f0

/-- The decorated callable computed lazily by `hook.__call__`:
`compose(*self._global_decorators)(self.func)` when decorators are
registered, the raw `func` otherwise. -/
def hook.appliedFn {α β : Type} (h : hook α β) : α → β :=
  match h.globalDecorators with
  | [] => h.func
  | d :: ds => compose d ds h.func

/-- `hook.__call__` (global-decorator path): applies the decorators on
first use, caches the result in `_applied`, and calls it. -/
def hook.call {α β : Type} (h : hook α β) (a : α) : β × hook α β :=
  match h.applied with
  | some fn => (fn a, h)
  | none =>
    let fn := h.appliedFn
    (fn a, { h with applied := some fn })

/-- `hook.register_decorator` (no instance argument): appends to
`_global_decorators` and clears the `_applied` cache. -/
def hook.register_decorator {α β : Type} (h : hook α β)
    (d : (α → β) → (α → β)) : hook α β :=
  { h with globalDecorators := h.globalDecorators ++ [d], applied := none }

/-- Nested application of decorators in registration order, the spec's
reading of the decoration pipeline: `applyDecorators [d0, ..., dn] f` is
`dn (... (d1 (d0 f)))`. -/
def applyDecorators {γ : Type} (ds : List (γ → γ)) (x : γ) : γ :=
  ds.foldl (fun y d => d y) x

/-! ## The concrete behavior dataclasses of `ubii.framework.client` -/

/-- The `Services` behavior: one field `service_map`. -/
def Services : BehaviorKind := ⟨"Services", ["service_map"]⟩

/-- The `Subscriptions` behavior with its four call slots. -/
def Subscriptions : BehaviorKind :=
  ⟨"Subscriptions",
    ["subscribe_regex", "subscribe_topic", "unsubscribe_regex", "unsubscribe_topic"]⟩

/-- The `Publish` behavior: one field `publish`. -/
def Publish : BehaviorKind := ⟨"Publish", ["publish"]⟩

/-- The `Register` behavior. -/
def Register : BehaviorKind := ⟨"Register", ["register", "deregister"]⟩

/-- The `Devices` behavior. -/
def Devices : BehaviorKind := ⟨"Devices", ["register_device", "deregister_device"]⟩

/-- The `RunProcessingModules` behavior. -/
def RunProcessingModules : BehaviorKind :=
  ⟨"RunProcessingModules", ["get_module_instance"]⟩

/-- The `InitProcessingModules` behavior. -/
def InitProcessingModules : BehaviorKind :=
  ⟨"InitProcessingModules", ["module_factories"]⟩

/-- The `DiscoverProcessingModules` behavior. -/
def DiscoverProcessingModules : BehaviorKind :=
  ⟨"DiscoverProcessingModules", ["discover_processing_modules"]⟩

/-- The `Sessions` behavior. -/
def Sessions : BehaviorKind :=
  ⟨"Sessions", ["sessions", "start_session", "stop_session", "get_sessions"]⟩

/-- The default `required_behaviors` of `UbiiClient.__init__`. -/
def defaultRequiredArgs : List BehaviorArg :=
  [.dataclass Services, .dataclass Subscriptions, .dataclass Publish]

/-- The default `optional_behaviors` of `UbiiClient.__init__`. -/
def defaultOptionalArgs : List BehaviorArg :=
  [.dataclass Register, .dataclass Devices, .dataclass RunProcessingModules,
   .dataclass InitProcessingModules, .dataclass DiscoverProcessingModules,
   .dataclass Sessions]

/-- Construction keyword arguments giving no name, no state and no id. -/
def defaultInit : ClientInit := ⟨"", none, ""⟩

/-- A freshly created protocol: not started, sentinel alive, end state `1`,
with the reset transition declared. -/
def baseProtocol : ProtocolModel :=
  { state := none, endState := 1, allowsResetTransition := true
  , wasStarted := false, sentinelAlive := true }

/-- Fallback client state (never reached by the constructions below). -/
def emptyClient : UbiiClient :=
  { protoFields := ⟨"", "", ClientStatus.unavailable⟩
  , requiredBehaviors := [], optionalBehaviors := []
  , behaviorKeys := [], behaviorMap := fun _ => none
  , notifier := none, nextTaskId := 0, deliveredCount := 0
  , initTaskGen := 0, nurseryGen := 0
  , protocol := baseProtocol
  , initSpecs := ⟨"", "", ClientStatus.unavailable⟩ }

/-- The client produced by `UbiiClient(protocol=baseProtocol)` with the
default behaviors. -/
def freshDefaultClient : UbiiClient :=
  match mkClient "UbiiClient" defaultInit baseProtocol
      defaultRequiredArgs defaultOptionalArgs with
  | .ok c => c
  | .error _ => emptyClient

/-- The client produced by `UbiiClient(protocol=baseProtocol, name="Foo")`
with the default behaviors. -/
def namedClientWitness : UbiiClient :=
  match mkClient "UbiiClient" ⟨"Foo", none, ""⟩ baseProtocol
      defaultRequiredArgs defaultOptionalArgs with
  | .ok c => c
  | .error _ => emptyClient

/-- A client whose protocol reached its end state and declares the
end-state-to-`None` transition. -/
def terminalClient : UbiiClient :=
  { freshDefaultClient with
      protocol := { baseProtocol with state := some 1, wasStarted := true } }

/-- A client whose protocol reached its end state but does *not* declare a
state change from the end state to `None`. -/
def noResetClient : UbiiClient :=
  { freshDefaultClient with
      protocol :=
        { baseProtocol with
            state := some 1
            wasStarted := true
            allowsResetTransition := false } }

/-- A client with a pending `_notify` task. -/
def pendingNotifierClient : UbiiClient :=
  { freshDefaultClient with notifier := some 0, nextTaskId := 1 }

/-! ## Helper lemmas -/

/-- `notify` only touches `_notifier` and the task-id counter. -/
theorem notifyClient_shape (c : UbiiClient) :
    ∃ n i, notifyClient c = { c with notifier := n, nextTaskId := i } := by
  unfold notifyClient
  split
  · exact ⟨some c.nextTaskId, c.nextTaskId + 1, rfl⟩
  · exact ⟨c.notifier, c.nextTaskId, rfl⟩

/-- After `notify` a notifier task is pending. -/
theorem notifyClient_pending (c : UbiiClient) :
    (notifyClient c).notifier.isSome = true := by
  unfold notifyClient
  split
  · rfl
  · rename_i h
    simpa [Option.isSome_iff_ne_none] using h

/-- A slot write only touches the behavior map, `_notifier` and the task-id
counter. -/
theorem clientWriteSlot_shape (c : UbiiClient) (k : BehaviorKind) (f : String)
    (v : Option Nat) :
    ∃ m n i, clientWriteSlot c k f v =
      { c with behaviorMap := m, notifier := n, nextTaskId := i } := by
  unfold clientWriteSlot
  split
  · exact ⟨c.behaviorMap, c.notifier, c.nextTaskId, rfl⟩
  · rename_i inst h
    obtain ⟨n, i, hn⟩ := notifyClient_shape
      { c with behaviorMap := fun k' =>
          if k' = k then some (setInstanceSlot inst f v) else c.behaviorMap k' }
    rw [hn]
    exact ⟨_, n, i, rfl⟩

/-- Characterization of slot values after a slot write. -/
theorem slotValue_writeSlot (c : UbiiClient) (k : BehaviorKind) (f : String)
    (v : Option Nat) (k' : BehaviorKind) (f' : String) :
    slotValue (clientWriteSlot c k f v) k' f' =
      if (c.behaviorMap k).isSome = true ∧ k' = k ∧ f' = f then v
      else slotValue c k' f' := by
  unfold clientWriteSlot
  split
  · rename_i h
    simp [h]
  · rename_i inst h
    obtain ⟨n, i, hn⟩ := notifyClient_shape
      { c with behaviorMap := fun k'' =>
          if k'' = k then some (setInstanceSlot inst f v) else c.behaviorMap k'' }
    rw [hn]
    by_cases hk : k' = k
    · subst hk
      by_cases hf : f' = f
      · subst hf; simp [slotValue, setInstanceSlot, h]
      · simp [slotValue, setInstanceSlot, h, hf]
    · simp [slotValue, hk]

/-- Writing `None` to any slot makes the written slot empty (a write to an
undeclared kind is a no-op, but then the slot reads empty anyway). -/
theorem slotValue_writeSlot_self (c : UbiiClient) (k : BehaviorKind)
    (f : String) :
    slotValue (clientWriteSlot c k f none) k f = none := by
  rw [slotValue_writeSlot]
  split
  · rfl
  · rename_i hcond
    have hmap : c.behaviorMap k = none := by
      by_contra hne
      exact hcond ⟨Option.isSome_iff_ne_none.mpr hne, rfl, rfl⟩
    simp [slotValue, hmap]

/-- Writing `None` never turns an empty slot non-empty. -/
theorem slotValue_writeSlot_preserve (c : UbiiClient) (k : BehaviorKind)
    (f : String) (k' : BehaviorKind) (f' : String)
    (hprev : slotValue c k' f' = none) :
    slotValue (clientWriteSlot c k f none) k' f' = none := by
  rw [slotValue_writeSlot]
  split
  · rfl
  · exact hprev

/-- An empty slot stays empty through the clearing loop of one kind. -/
theorem slotValue_clearFold_preserve (fs : List String) :
    ∀ (c : UbiiClient) (k2 k : BehaviorKind) (f : String),
      slotValue c k f = none →
      slotValue (fs.foldl (fun acc g => clientWriteSlot acc k2 g none) c) k f
        = none := by
  induction fs with
  | nil => intro c k2 k f h; simpa using h
  | cons g fs ih =>
    intro c k2 k f h
    rw [List.foldl_cons]
    exact ih _ k2 k f (slotValue_writeSlot_preserve c k2 g k f h)

/-- The clearing loop of one kind empties every field it visits. -/
theorem slotValue_clearFold_sets (fs : List String) :
    ∀ (c : UbiiClient) (k : BehaviorKind) (f : String), f ∈ fs →
      slotValue (fs.foldl (fun acc g => clientWriteSlot acc k g none) c) k f
        = none := by
  induction fs with
  | nil => intro c k f h; simp at h
  | cons g fs ih =>
    intro c k f hf
    rw [List.foldl_cons]
    rcases List.mem_cons.mp hf with h | h
    · subst h
      exact slotValue_clearFold_preserve fs _ k k f
        (slotValue_writeSlot_self c k f)
    · exact ih _ k f h

/-- An empty slot stays empty through `clearKindFields` of any kind. -/
theorem slotValue_clearKindFields_preserve (c : UbiiClient)
    (k2 k : BehaviorKind) (f : String) (h : slotValue c k f = none) :
    slotValue (clearKindFields c k2) k f = none :=
  slotValue_clearFold_preserve k2.fields c k2 k f h

/-- An empty slot stays empty through the clearing loop over a list of
kinds. -/
theorem slotValue_clearKindsFold_preserve (ks : List BehaviorKind) :
    ∀ (c : UbiiClient) (k : BehaviorKind) (f : String),
      slotValue c k f = none →
      slotValue (ks.foldl clearKindFields c) k f = none := by
  induction ks with
  | nil => intro c k f h; simpa using h
  | cons k0 ks ih =>
    intro c k f h
    rw [List.foldl_cons]
    exact ih _ k f (slotValue_clearKindFields_preserve c k0 k f h)

/-- After the full clearing loop of `ClientInitTaskWrapper.reset`, every
field of every visited kind reads empty. -/
theorem clearFold_clears (ks : List BehaviorKind) :
    ∀ (c : UbiiClient) (k : BehaviorKind), k ∈ ks → ∀ f ∈ k.fields,
      slotValue (ks.foldl clearKindFields c) k f = none := by
  induction ks with
  | nil => intro c k h; simp at h
  | cons k0 ks ih =>
    intro c k hk f hf
    rw [List.foldl_cons]
    rcases List.mem_cons.mp hk with h | h
    · subst h
      exact slotValue_clearKindsFold_preserve ks _ k f
        (slotValue_clearFold_sets k.fields c k f hf)
    · exact ih _ k h f hf

/-- The clearing loop of one kind only touches the behavior map,
`_notifier` and the task-id counter. -/
theorem clearFold_shape (fs : List String) :
    ∀ (c : UbiiClient) (k : BehaviorKind),
      ∃ m n i, fs.foldl (fun acc g => clientWriteSlot acc k g none) c =
        { c with behaviorMap := m, notifier := n, nextTaskId := i } := by
  induction fs with
  | nil =>
    intro c k
    exact ⟨c.behaviorMap, c.notifier, c.nextTaskId, rfl⟩
  | cons g fs ih =>
    intro c k
    rw [List.foldl_cons]
    obtain ⟨m1, n1, i1, h1⟩ := clientWriteSlot_shape c k g none
    obtain ⟨m2, n2, i2, h2⟩ := ih (clientWriteSlot c k g none) k
    rw [h2, h1]
    exact ⟨m2, n2, i2, rfl⟩

/-- The full clearing loop only touches the behavior map, `_notifier` and
the task-id counter. -/
theorem clearKindsFold_shape (ks : List BehaviorKind) :
    ∀ c : UbiiClient,
      ∃ m n i, ks.foldl clearKindFields c =
        { c with behaviorMap := m, notifier := n, nextTaskId := i } := by
  induction ks with
  | nil =>
    intro c
    exact ⟨c.behaviorMap, c.notifier, c.nextTaskId, rfl⟩
  | cons k0 ks ih =>
    intro c
    rw [List.foldl_cons]
    obtain ⟨m1, n1, i1, h1⟩ := clearFold_shape k0.fields c k0
    obtain ⟨m2, n2, i2, h2⟩ := ih (clearKindFields c k0)
    rw [h2]
    unfold clearKindFields
    rw [h1]
    exact ⟨m2, n2, i2, rfl⟩

/-- The dead-nursery recovery only touches the nursery generation and the
sentinel flag. -/
theorem sentinelFix_shape (c : UbiiClient) :
    ∃ g a, sentinelFix c =
      { c with nurseryGen := g
             , protocol := { c.protocol with sentinelAlive := a } } := by
  unfold sentinelFix
  split
  · exact ⟨c.nurseryGen, c.protocol.sentinelAlive, rfl⟩
  · exact ⟨c.nurseryGen + 1, true, rfl⟩

/-- Replacing a dead nursery does not change whether the protocol is
finished. -/
theorem sentinelFix_finished (c : UbiiClient) :
    protocolFinished (sentinelFix c).protocol = protocolFinished c.protocol := by
  obtain ⟨g, a, h⟩ := sentinelFix_shape c
  rw [h]
  rfl

/-- On a present instance, the field check of one kind evaluates to the
conjunction of the slots being non-empty. -/
theorem checkKindFields_eq (inst : BehaviorInstance) (fs : List String) :
    checkKindFields (some inst) fs =
      .ok (fs.all fun f => (inst.slots f).isSome) := by
  induction fs with
  | nil => rfl
  | cons f fs ih =>
    simp only [checkKindFields, List.all_cons]
    cases h : (inst.slots f).isSome with
    | true => simpa [h] using ih
    | false => simp [h]

/-- When every queried kind is declared, the `fields_not_none` predicate
evaluates (without raising) to the conjunction over all kinds and fields. -/
theorem fields_not_none_eq (c : UbiiClient) (ks : List BehaviorKind)
    (hdecl : ∀ k ∈ ks, (c.behaviorMap k).isSome = true) :
    fields_not_none c ks =
      .ok (ks.all fun k => k.fields.all fun f => (slotValue c k f).isSome) := by
  induction ks with
  | nil => rfl
  | cons k ks ih =>
    have hk : (c.behaviorMap k).isSome = true := hdecl k (by simp)
    obtain ⟨inst, hinst⟩ := Option.isSome_iff_exists.mp hk
    have hs : ∀ f, slotValue c k f = inst.slots f := by
      intro f; simp [slotValue, hinst]
    simp only [fields_not_none, hinst, checkKindFields_eq, List.all_cons]
    cases hb : (k.fields.all fun f => (inst.slots f).isSome) with
    | true =>
      have : (k.fields.all fun f => (slotValue c k f).isSome) = true := by
        simpa [hs] using hb
      simp [this, ih fun k' h' => hdecl k' (by simp [h'])]
    | false =>
      have : (k.fields.all fun f => (slotValue c k f).isSome) = false := by
        simpa [hs] using hb
      simp [this]

/-- `compose` is nested application of the composed callables in argument
order. -/
theorem compose_eq {γ : Type} (ds : List (γ → γ)) :
    ∀ (f0 : γ → γ) (x : γ), compose f0 ds x = applyDecorators ds (f0 x) := by
  induction ds with
  | nil => intro f0 x; rfl
  | cons d ds ih =>
    intro f0 x
    simpa [compose, applyDecorators, List.foldl_cons] using
      ih (fun a => d (f0 a)) x

/-- The decorated callable of a hook applies the registered decorators in
registration order, outermost last. -/
theorem appliedFn_eq {α β : Type} (f : α → β)
    (ds : List ((α → β) → (α → β))) (ap : Option (α → β)) (a : α) :
    hook.appliedFn ⟨f, ds, ap⟩ a = applyDecorators ds f a := by
  cases ds with
  | nil => rfl
  | cons d ds =>
    simpa [hook.appliedFn, applyDecorators, List.foldl_cons] using
      congrFun (compose_eq ds d f) a

/-- Folding `register_decorator` over a list of decorators appends them in
order and clears the `_applied` cache. -/
theorem registerFold_eq {α β : Type} (ds : List ((α → β) → (α → β))) :
    ∀ (f : α → β) (gs : List ((α → β) → (α → β))),
      ds.foldl hook.register_decorator (⟨f, gs, none⟩ : hook α β) =
        ⟨f, gs ++ ds, none⟩ := by
  induction ds with
  | nil => intro f gs; simp
  | cons d ds ih =>
    intro f gs
    rw [List.foldl_cons]
    simpa [hook.register_decorator] using ih f (gs ++ [d])

/-- The framework's default client name is never the empty string. -/
theorem default_name_ne_empty (className : String) :
    ("Python-Client-" ++ className) ≠ "" := by
  intro h
  have hl := congrArg String.length h
  rw [String.length_append] at hl
  have h14 : ("Python-Client-").length = 14 := by decide
  rw [h14] at hl
  simp at hl

/-! ## Claim theorems -/

/-- **C7**: constructing a `UbiiClient` fails synchronously with a
`ValueError` (the source's invalid-argument error) whenever some element of
`required_behaviors` or `optional_behaviors` is not a dataclass; when all
elements are dataclasses, construction succeeds and the declared required
and optional behavior sets are exactly the kinds passed. -/
theorem construction_validates (className : String) (init : ClientInit)
    (p : ProtocolModel) (reqBad optBad reqOk optOk : List BehaviorArg)
    (hbad : (reqBad ++ optBad).all BehaviorArg.isDataclass = false)
    (hok : (reqOk ++ optOk).all BehaviorArg.isDataclass = true) :
    mkClient className init p reqBad optBad = .error PyError.valueError
    ∧ ∃ c, mkClient className init p reqOk optOk = .ok c
        ∧ c.requiredBehaviors = reqOk.filterMap BehaviorArg.kind?
        ∧ c.optionalBehaviors = optOk.filterMap BehaviorArg.kind? := by
  constructor
  · simp [mkClient, hbad]
  · simp [mkClient, hok]

/-- Witness for `construction_validates`: a non-dataclass object among the
required behaviors is rejected, the default behaviors are accepted. -/
theorem construction_validates_witness :
    mkClient "UbiiClient" defaultInit baseProtocol
        [BehaviorArg.notDataclass "object"] defaultOptionalArgs
      = .error PyError.valueError
    ∧ ∃ c, mkClient "UbiiClient" defaultInit baseProtocol
          defaultRequiredArgs defaultOptionalArgs = .ok c
        ∧ c.requiredBehaviors = defaultRequiredArgs.filterMap BehaviorArg.kind?
        ∧ c.optionalBehaviors = defaultOptionalArgs.filterMap BehaviorArg.kind? :=
  construction_validates "UbiiClient" defaultInit baseProtocol
    [BehaviorArg.notDataclass "object"] defaultOptionalArgs
    defaultRequiredArgs defaultOptionalArgs (by decide) (by decide)

/-- **C10**: a freshly constructed `UbiiClient` always has a non-empty
display name — defaulted to `"Python-Client-" + class name` when the given
name is empty/falsy, kept otherwise — and, when no `state` field is
supplied, its status is initialized to `UNAVAILABLE`. -/
theorem construction_defaults (className : String) (p : ProtocolModel)
    (req opt : List BehaviorArg) (initAnon initNamed : ClientInit)
    (c₁ c₂ : UbiiClient)
    (hn : initAnon.name = "") (hs : initAnon.state? = none)
    (hm : initNamed.name ≠ "")
    (h1 : mkClient className initAnon p req opt = .ok c₁)
    (h2 : mkClient className initNamed p req opt = .ok c₂) :
    c₁.protoFields.name = "Python-Client-" ++ className
    ∧ c₁.protoFields.name ≠ ""
    ∧ c₁.protoFields.state = ClientStatus.unavailable
    ∧ c₂.protoFields.name = initNamed.name
    ∧ c₂.protoFields.name ≠ "" := by
  simp only [mkClient] at h1 h2
  split at h1
  · rename_i hcond
    rw [if_pos hcond] at h2
    simp only [Except.ok.injEq] at h1 h2
    subst h1; subst h2
    refine ⟨?_, ?_, ?_, ?_, ?_⟩
    · simp [hn]
    · simp [hn, default_name_ne_empty]
    · simp [hs]
    · simp [hm]
    · simp [hm]
  · exact absurd h1 (by simp)

/-- Witness for `construction_defaults` with the default construction
arguments and a named construction. -/
theorem construction_defaults_witness :
    freshDefaultClient.protoFields.name = "Python-Client-" ++ "UbiiClient"
    ∧ freshDefaultClient.protoFields.name ≠ ""
    ∧ freshDefaultClient.protoFields.state = ClientStatus.unavailable
    ∧ (namedClientWitness.protoFields.name = (⟨"Foo", none, ""⟩ : ClientInit).name
    ∧ namedClientWitness.protoFields.name ≠ "") := by
  have h := construction_defaults "UbiiClient" baseProtocol
    defaultRequiredArgs defaultOptionalArgs defaultInit ⟨"Foo", none, ""⟩
    freshDefaultClient namedClientWitness
    (by decide) (by decide) (by decide) (by rfl) (by rfl)
  exact ⟨h.1, h.2.1, h.2.2.1, h.2.2.2.1, h.2.2.2.2⟩

/-- **C8**: `wants` is true exactly when every passed kind is among the
declared required or optional behaviors, and its value does not change when
behavior slots are written. -/
theorem wants_spec (c : UbiiClient) (ks : List BehaviorKind)
    (k' : BehaviorKind) (f : String) (v : Option Nat) :
    (wants c ks = true ↔
      ∀ k ∈ ks, k ∈ c.requiredBehaviors ∨ k ∈ c.optionalBehaviors)
    ∧ wants (clientWriteSlot c k' f v) ks = wants c ks := by
  constructor
  · simp [wants, List.all_eq_true]
  · obtain ⟨m, n, i, h⟩ := clientWriteSlot_shape c k' f v
    rw [h]
    simp [wants]

/-- **C4**: `on_registration` awaits `create_topic_connection`, then
`implement_client`, then waits for the client with the fixed 5-second
deadline; an expired deadline raises `RuntimeError` with the
`asyncio.TimeoutError` as cause instead of the raw timeout, and a
successful wait sets the client status to `ACTIVE`. -/
theorem on_registration_spec (c : UbiiClient) (b : Bool) :
    (on_registration b c).1.take 3 =
      [RegStep.createTopicConnection, RegStep.implementClient,
        RegStep.waitForClient 5]
    ∧ (on_registration false c).2 =
        .error (PyError.runtimeError (some PyError.timeoutError))
    ∧ ∃ c', (on_registration true c).2 = .ok c'
        ∧ c'.protoFields.state = ClientStatus.active := by
  refine ⟨?_, rfl, ⟨_, rfl, rfl⟩⟩
  cases b <;> rfl

/-- **C9**: calling a hook applies the globally registered decorators in
registration order with the most recently registered one outermost —
after registering `d0, ..., dn` the hook computes `dn (... (d1 (d0 f)))`
on its arguments — and a decorator registered after a call (which cached
the decorated callable) takes effect at the next call. -/
theorem hook_decorator_order {α β : Type} (f : α → β)
    (ds : List ((α → β) → (α → β))) (d : (α → β) → (α → β)) (a : α) :
    ((ds.foldl hook.register_decorator (hook.mkHook f)).call a).1
        = applyDecorators ds f a
    ∧ ((((ds.foldl hook.register_decorator
            (hook.mkHook f)).call a).2.register_decorator d).call a).1
        = applyDecorators (ds ++ [d]) f a := by
  have hfold : ds.foldl hook.register_decorator (hook.mkHook f)
      = ⟨f, ds, none⟩ := by
    simpa [hook.mkHook] using registerFold_eq ds f []
  constructor
  · rw [hfold]
    exact appliedFn_eq f ds none a
  · rw [hfold]
    exact appliedFn_eq f (ds ++ [d]) none a

/-- Slot values only depend on the behavior map. -/
theorem slotValue_eq_of_map (c₁ c₂ : UbiiClient)
    (h : c₁.behaviorMap = c₂.behaviorMap) (k : BehaviorKind) (f : String) :
    slotValue c₁ k f = slotValue c₂ k f := by
  unfold slotValue
  rw [h]

/-- **C2**: calling `reset` while the protocol is not in its end state
fails with a `ValueError` (the source's invalid-state error) and leaves
every capability slot of every behavior with the value it had before the
call. -/
theorem reset_invalid_state (c : UbiiClient)
    (h : protocolFinished c.protocol = false) :
    (clientReset c).1 = some PyError.valueError
    ∧ ∀ k f, slotValue (clientReset c).2 k f = slotValue c k f := by
  have h1 : protocolFinished (sentinelFix c).protocol = false := by
    rw [sentinelFix_finished]; exact h
  have hred : clientReset c = (some PyError.valueError, sentinelFix c) := by
    simp only [clientReset]
    rw [if_neg (by simp [h1])]
  rw [hred]
  refine ⟨rfl, fun k f => ?_⟩
  obtain ⟨g, a, hs⟩ := sentinelFix_shape c
  rw [hs]
  rfl

/-- Witness for `reset_invalid_state`: a freshly constructed client whose
protocol has not started. -/
theorem reset_invalid_state_witness :
    (clientReset freshDefaultClient).1 = some PyError.valueError
    ∧ ∀ k f, slotValue (clientReset freshDefaultClient).2 k f
        = slotValue freshDefaultClient k f :=
  reset_invalid_state freshDefaultClient (by rfl)

/-- Counterexample to **C3** as stated: on a client whose protocol is in
its end state but does not declare a state change from the end state to
`None`, `reset` completes without error (the internal `ValueError` is
turned into a warning) yet the protocol state remains the end state
instead of being set back to the not-started marker. -/
theorem reset_terminal_counterexample :
    protocolFinished noResetClient.protocol = true
    ∧ (clientReset noResetClient).1 = none
    ∧ (clientReset noResetClient).2.protocol.state = some 1
    ∧ (clientReset noResetClient).2.protocol.state ≠ none := by
  refine ⟨rfl, rfl, rfl, fun h => ?_⟩
  rw [show (clientReset noResetClient).2.protocol.state = some 1 from rfl] at h
  exact Option.noConfusion h

/-- **C3** (amended): when `reset` is called while the protocol is in its
end state, every declared field of every declared behavior kind is cleared
to `None`, a fresh wait-until-usable task replaces the old one, the proto
fields recorded in `initial_specs` are restored, and — provided the
protocol declares a state change from its end state to `None` — the
protocol state is set back to the not-started marker (otherwise it is left
unchanged and only a warning is emitted). -/
theorem reset_terminal_spec (c : UbiiClient)
    (hfin : protocolFinished c.protocol = true)
    (htr : c.protocol.allowsResetTransition = true) :
    (clientReset c).1 = none
    ∧ (∀ k ∈ c.behaviorKeys, ∀ f ∈ k.fields,
        slotValue (clientReset c).2 k f = none)
    ∧ (clientReset c).2.initTaskGen = c.initTaskGen + 1
    ∧ (clientReset c).2.protocol.state = none
    ∧ (clientReset c).2.protoFields = c.initSpecs := by
  obtain ⟨g, a, hs⟩ := sentinelFix_shape c
  have h1 : protocolFinished (sentinelFix c).protocol = true := by
    rw [sentinelFix_finished]; exact hfin
  obtain ⟨m, n, i, hc⟩ := clearKindsFold_shape (sentinelFix c).behaviorKeys
    (sentinelFix c)
  have hclear : clearAllSlots (sentinelFix c)
      = { sentinelFix c with behaviorMap := m, notifier := n, nextTaskId := i } := hc
  have hkeys : (sentinelFix c).behaviorKeys = c.behaviorKeys := by rw [hs]
  have hallows : (sentinelFix c).protocol.allowsResetTransition = true := by
    rw [hs]; exact htr
  have hred : clientReset c = (none,
      { sentinelFix c with
          behaviorMap := m
          notifier := n
          nextTaskId := i
          initTaskGen := (sentinelFix c).initTaskGen + 1
          protocol := { (sentinelFix c).protocol with state := none }
          protoFields := (sentinelFix c).initSpecs }) := by
    simp only [clientReset]
    rw [if_pos h1, clearAllSlots, hc]
    simp [hallows]
  refine ⟨by rw [hred], fun k hk f hf => ?_, ?_, ?_, ?_⟩
  · have hm : ((clientReset c).2).behaviorMap
        = (clearAllSlots (sentinelFix c)).behaviorMap := by
      rw [hred, hclear]
    have := slotValue_eq_of_map (clientReset c).2 (clearAllSlots (sentinelFix c))
      hm k f
    rw [this]
    exact clearFold_clears (sentinelFix c).behaviorKeys (sentinelFix c) k
      (by rw [hkeys]; exact hk) f hf
  · rw [hred, hs]
  · rw [hred]
  · rw [hred, hs]

/-- Witness for `reset_terminal_spec`: a default client whose protocol
reached its end state and declares the reset transition. -/
theorem reset_terminal_spec_witness :
    (clientReset terminalClient).1 = none
    ∧ (∀ k ∈ terminalClient.behaviorKeys, ∀ f ∈ k.fields,
        slotValue (clientReset terminalClient).2 k f = none)
    ∧ (clientReset terminalClient).2.initTaskGen
        = terminalClient.initTaskGen + 1
    ∧ (clientReset terminalClient).2.protocol.state = none
    ∧ (clientReset terminalClient).2.protoFields = terminalClient.initSpecs :=
  reset_terminal_spec terminalClient (by rfl) (by rfl)

/-- A slot write while a notifier task is pending keeps the pending task
and delivers nothing. -/
theorem clientWriteSlot_notifier_pending (c : UbiiClient) (k : BehaviorKind)
    (f : String) (v : Option Nat) (t : Nat) (h : c.notifier = some t) :
    (clientWriteSlot c k f v).notifier = some t
    ∧ (clientWriteSlot c k f v).deliveredCount = c.deliveredCount := by
  unfold clientWriteSlot
  split
  · exact ⟨h, rfl⟩
  · unfold notifyClient
    rw [if_neg (by simp [h])]
    exact ⟨h, rfl⟩

/-- **C5**: signal delivery is coalesced — `notify` on a client with a
pending notifier task is a no-op, at most one notifier task is pending
after any sequence of slot writes and deliveries, and the pending marker
is cleared exactly when the notification is delivered to the waiters. -/
theorem notify_coalesced (c : UbiiClient) (t : Nat) (h : c.notifier = some t)
    (ev : NotifyEvent) (c₀ : UbiiClient) (evs : List NotifyEvent) :
    notifyClient c = c
    ∧ pendingCount (evs.foldl stepNotify c₀) ≤ 1
    ∧ ((stepNotify c ev).deliveredCount = c.deliveredCount + 1 ↔
        (stepNotify c ev).notifier = none) := by
  refine ⟨?_, ?_, ?_⟩
  · unfold notifyClient
    rw [if_neg (by simp [h])]
  · unfold pendingCount
    split <;> simp
  · cases ev with
    | deliver =>
      show (deliverNotifier c).deliveredCount = c.deliveredCount + 1 ↔
        (deliverNotifier c).notifier = none
      unfold deliverNotifier
      rw [if_neg (by simp [h])]
      simp
    | writeSlot k f v =>
      have hp := clientWriteSlot_notifier_pending c k f v t h
      show (clientWriteSlot c k f v).deliveredCount = c.deliveredCount + 1 ↔
        (clientWriteSlot c k f v).notifier = none
      rw [hp.1, hp.2]
      simp

/-- Witness for `notify_coalesced`: a client with a pending notifier task,
a delivery event, and a burst of two slot writes on a fresh client. -/
theorem notify_coalesced_witness :
    notifyClient pendingNotifierClient = pendingNotifierClient
    ∧ pendingCount
        ([NotifyEvent.writeSlot Services "service_map" (some 7),
          NotifyEvent.writeSlot Publish "publish" (some 8)].foldl
          stepNotify freshDefaultClient) ≤ 1
    ∧ ((stepNotify pendingNotifierClient NotifyEvent.deliver).deliveredCount
          = pendingNotifierClient.deliveredCount + 1 ↔
        (stepNotify pendingNotifierClient NotifyEvent.deliver).notifier
          = none) :=
  notify_coalesced pendingNotifierClient 0 (by rfl) NotifyEvent.deliver
    freshDefaultClient
    [NotifyEvent.writeSlot Services "service_map" (some 7),
     NotifyEvent.writeSlot Publish "publish" (some 8)]

/-- `notify` does not change the behavior map. -/
theorem notifyClient_behaviorMap (c : UbiiClient) :
    (notifyClient c).behaviorMap = c.behaviorMap := by
  obtain ⟨n, i, h⟩ := notifyClient_shape c
  rw [h]

/-- Counterexample to **C6** as stated: replacing the instance stored
under the `Services` kind with a `Register` instance — a value whose
dataclass kind does not match the key — succeeds instead of failing with
an invalid-argument error: `__setitem__` only checks
`dataclasses.is_dataclass(value)`. -/
theorem setItem_mismatch_counterexample :
    Register ≠ Services
    ∧ ∃ c', setItem freshDefaultClient Services
        (PyValue.dataclassVal (freshInstance Register)) = .ok c' := by
  exact ⟨by decide, ⟨_, rfl⟩⟩

/-- **C6** (amended): replacing a whole capability instance via
`client[key] = value` succeeds for every dataclass instance value — the
value's kind need not match the key, and the copied instance is stored
under the key as given — while a non-dataclass value fails with a
`ValueError` (the source's invalid-argument error); a successful
replacement re-signals the readiness gate (a notifier task is pending
afterwards). -/
theorem setItem_spec (c : UbiiClient) (key : BehaviorKind)
    (inst : BehaviorInstance) (s : String) :
    (∃ c', setItem c key (PyValue.dataclassVal inst) = .ok c'
      ∧ getBehavior c' key = some (copyAsDict inst)
      ∧ c'.notifier.isSome = true)
    ∧ setItem c key (PyValue.otherVal s) = .error PyError.valueError := by
  refine ⟨⟨_, rfl, ?_, ?_⟩, rfl⟩
  · show (notifyClient _).behaviorMap key = some (copyAsDict inst)
    rw [notifyClient_behaviorMap]
    simp
  · exact notifyClient_pending _

/-- A fresh default client with the single `Services` slot written. -/
def servicesFilledClient : UbiiClient :=
  clientWriteSlot freshDefaultClient Services "service_map" (some 3)

/-- **C1**: for every collection of declared behavior kinds the boolean
value of `implements` is true iff every dataclass field of every named
kind is non-`None` on the client's instance of that kind; and on a freshly
constructed `UbiiClient` every behavior instance has all its fields
`None`, so `implements` of a declared kind is false whenever the kind has
at least one field (it evaluates to whether the kind's field list is
empty). -/
theorem implements_spec (c : UbiiClient) (ks : List BehaviorKind)
    (hdecl : ∀ k ∈ ks, (c.behaviorMap k).isSome = true)
    (className : String) (init : ClientInit) (p : ProtocolModel)
    (req opt : List BehaviorArg) (c₀ : UbiiClient)
    (hmk : mkClient className init p req opt = .ok c₀) :
    (implementsBool c ks = .ok true ↔
      ∀ k ∈ ks, ∀ f ∈ k.fields, (slotValue c k f).isSome = true)
    ∧ (∀ k f, slotValue c₀ k f = none)
    ∧ (∀ k ∈ c₀.behaviorKeys,
        implementsBool c₀ [k] = .ok k.fields.isEmpty) := by
  simp only [mkClient] at hmk
  split at hmk
  · simp only [Except.ok.injEq] at hmk
    subst hmk
    refine ⟨?_, ?_, ?_⟩
    · rw [implementsBool, fields_not_none_eq c ks hdecl]
      simp [List.all_eq_true]
    · intro k f
      by_cases hk : k ∈ insertKeys
          (req.filterMap BehaviorArg.kind? ++ opt.filterMap BehaviorArg.kind?)
      · simp [slotValue, hk, freshInstance]
      · simp [slotValue, hk]
    · intro k hk
      replace hk : k ∈ insertKeys
          (req.filterMap BehaviorArg.kind? ++ opt.filterMap BehaviorArg.kind?) := hk
      cases hf : k.fields with
      | nil => simp [implementsBool, fields_not_none, checkKindFields, hf]
      | cons f fs =>
        simp [implementsBool, fields_not_none, hf, hk, checkKindFields_eq,
          freshInstance]
  · exact absurd hmk (by simp)

/-- Witness for `implements_spec`: a client whose `Services` slot has been
written, queried for `Services`, together with the fresh default client. -/
theorem implements_spec_witness :
    (implementsBool servicesFilledClient [Services] = .ok true ↔
      ∀ k ∈ [Services], ∀ f ∈ k.fields,
        (slotValue servicesFilledClient k f).isSome = true)
    ∧ (∀ k f, slotValue freshDefaultClient k f = none)
    ∧ (∀ k ∈ freshDefaultClient.behaviorKeys,
        implementsBool freshDefaultClient [k] = .ok k.fields.isEmpty) :=
  implements_spec servicesFilledClient [Services] (by decide) "UbiiClient"
    defaultInit baseProtocol defaultRequiredArgs defaultOptionalArgs
    freshDefaultClient (by rfl)

end Ubii
